import Mathlib

/-!
# Verification of the wordgen word pipeline (src/src/wordFilter.ts)

Shallow embedding of the word acquisition / validation / sampling pipeline.
The repository file `src/src/wordFilter.ts` contains four historical variants
of the `WordFilter` class.  We embed:

* namespace `V1` — the first variant (and the textually identical second
  variant): `hasVowel`, `hasExcessiveRepetition`, `isAbbreviation`,
  `hasUKSpelling`, `validateWord`;
* namespace `V4` — the last ("denylist") variant: `hasVowel`,
  `hasExcessiveRepetition`, `isUKSpelling`, `hasUncommonLetterPatterns`,
  `validateWord`, `fetchWordList`, `fetchWordListBySource`,
  `generateWords` sampling, `generateWordsFromMultipleSources`.

JavaScript strings are modelled as `List Char` with ASCII case mapping;
machine floats appear only in `consonants > word.length * 0.7`, which for the
integer operands that occur is the exact rational comparison
`10 * consonants > 7 * length` (checked against IEEE doubles for the lengths
admitted by the validator).  The external `bad-words` profanity filter is not
part of the repository and is modelled as an explicit boolean parameter.
-/

deriving instance DecidableEq for Except

/-- A JavaScript string, modelled as its list of characters. -/
abbrev Word := List Char

/-- Lowercase ASCII letter test, i.e. membership in the character class
`[a-z]` of the regexes `/^[a-z]+$/` used throughout `wordFilter.ts`
(code points 97–122). -/
def isLowerAlpha (c : Char) : Bool := 97 ≤ c.toNat && c.toNat ≤ 122

/-- Uppercase ASCII letter test `[A-Z]` (code points 65–90). -/
def isUpperAlpha (c : Char) : Bool := 65 ≤ c.toNat && c.toNat ≤ 90

/-- ASCII case folding of one character, modelling the effect of
JavaScript `toLowerCase` on the characters relevant here. -/
def lowerChar (c : Char) : Char :=
  if isUpperAlpha c then Char.ofNat (c.toNat + 32) else c

/-- ASCII upper-casing of one character, modelling `toUpperCase`. -/
def upperChar (c : Char) : Char :=
  if isLowerAlpha c then Char.ofNat (c.toNat - 32) else c

/-- Whitespace as removed by JavaScript `String.prototype.trim`
(restricted to the common ASCII whitespace characters). -/
def isWhitespace (c : Char) : Bool :=
  c = ' ' || c = '\t' || c = '\n' || c = '\r'

/-- `trim`: drop leading and trailing whitespace. -/
def trimList (w : Word) : Word :=
  ((w.dropWhile isWhitespace).reverse.dropWhile isWhitespace).reverse

/-- `word.toLowerCase().trim()`, the normalisation every `validateWord`
variant applies to its argument before the checks. -/
def normalizeWord (w : Word) : Word := trimList (w.map lowerChar)

/-- The regex test `/^[a-z]+$/.test word`. -/
def matchesLowerAlpha (w : Word) : Bool := !w.isEmpty && w.all isLowerAlpha

/-- The vowel set `this.vowels = new Set(['a','e','i','o','u','y'])`. -/
def isVowelChar (c : Char) : Bool :=
  c = 'a' || c = 'e' || c = 'i' || c = 'o' || c = 'u' || c = 'y'

/-- Number of occurrences of character `c` in `w`
(one entry of the `letterCounts` map). -/
def countChar (w : Word) (c : Char) : Nat := (w.filter (fun d => d = c)).length

/-- The distinct characters of `w` in order of first occurrence: the key set
of the JavaScript `Map` `letterCounts` (insertion order). -/
def distinctLetters : Word → List Char
  | [] => []
  | c :: t => c :: (distinctLetters t).filter (fun d => d ≠ c)

/-- `hasVowel`: `word.split('').some(letter => this.vowels.has(letter))`
(identical in every variant). -/
def hasVowel (w : Word) : Bool := w.any isVowelChar

/-- The result record `{isValid, reason?}` returned by `validateWord`. -/
structure WordValidationResult where
  isValid : Bool
  reason : Option String
deriving DecidableEq, Repr

/-- Lengths of the maximal vowel runs of a word, i.e. the lengths of the
matches of `word.match(/[aeiouy]+/g)` in order. -/
def vowelRuns : Word → List Nat
  | [] => []
  | c :: t =>
    let rest := vowelRuns t
    if isVowelChar c then
      match t with
      | [] => [1]
      | c' :: _ =>
        if isVowelChar c' then
          match rest with
          | n :: ns => (n + 1) :: ns
          | [] => [1]
        else 1 :: rest
    else rest

/-- Whether `w` has two adjacent characters both drawn from `s`, i.e. a match
of a regex of the form `/[s]{2,}/` or `/[s][s]/`. -/
def hasAdjacentPair (s : List Char) (w : Word) : Bool :=
  match w with
  | a :: b :: t => (s.contains a && s.contains b) || hasAdjacentPair s (b :: t)
  | _ => false

/-- Boolean end-anchored pattern match, `/pat$/.test w`. -/
def endsWithSeq (pat : Word) (w : Word) : Bool := pat.isSuffixOf w

/-- Boolean unanchored pattern match, `/pat/.test w`: `pat` occurs as a
contiguous subsequence of `w`. -/
def containsSeq (pat : Word) : Word → Bool
  | [] => pat.isEmpty
  | c :: t => pat.isPrefixOf (c :: t) || containsSeq pat t

/-- Whether `w` starts with `k` consecutive characters satisfying `p`
(a match of `/^[p]{k,}/`). -/
def startsWithRun (p : Char → Bool) (k : Nat) (w : Word) : Bool :=
  k ≤ w.length && (w.take k).all p

/-- Whether `w` contains `k` consecutive characters satisfying `p`
anywhere (a match of `/[p]{k,}/`). -/
def hasRun (p : Char → Bool) (k : Nat) : Word → Bool
  | [] => startsWithRun p k []
  | c :: t => startsWithRun p k (c :: t) || hasRun p k t

namespace V1

/-- `hasExcessiveRepetition` of the first variant: the maximal letter count
reaches `word.length / 2` (JavaScript float division, so `maxCount ≥ len / 2`
is the exact rational comparison `2 * maxCount ≥ len`). -/
def hasExcessiveRepetition (w : Word) : Bool :=
  let maxCount := ((distinctLetters w).map (countChar w)).foldl max 0
  2 * maxCount ≥ w.length

/-- `isAbbreviation` of the first/second variant: consonant-heavy words,
short mostly-consonant words, all-caps words, and 3+ isolated vowel groups.
`consonants > word.length * 0.7` is modelled exactly as
`10 * consonants > 7 * length`. -/
def isAbbreviation (w : Word) : Bool :=
  let consonants := (w.filter (fun c => !isVowelChar c)).length
  if 10 * consonants > 7 * w.length then true
  else if w.length ≤ 3 && consonants ≥ 2 then true
  else if w.map upperChar = w && w.length > 1 then true
  else
    let vowelGroups := vowelRuns w
    vowelGroups.length ≥ 3 && vowelGroups.all (fun g => g = 1)

/-- `hasUKSpelling` of the first/second variant: each entry of
`ukSpellingPatterns` is compiled with `new RegExp(pattern, 'i')`, so
`'our'`, `'ise'`, `'yse'`, `'ae'`, `'oe'` match anywhere in the word and only
`'re$'`, `'ogue$'` are anchored to the end; matching is case-insensitive. -/
def hasUKSpelling (w : Word) : Bool :=
  let lw := w.map lowerChar
  containsSeq ['o', 'u', 'r'] lw ||
    containsSeq ['i', 's', 'e'] lw ||
    containsSeq ['y', 's', 'e'] lw ||
    endsWithSeq ['r', 'e'] lw ||
    endsWithSeq ['o', 'g', 'u', 'e'] lw ||
    containsSeq ['a', 'e'] lw ||
    containsSeq ['o', 'e'] lw

/-- The `uncommonPatterns` check inside the first/second variant
`validateWord`. -/
def hasUncommonPatterns (w : Word) : Bool :=
  hasAdjacentPair ['q', 'w', 'x'] w ||
    hasAdjacentPair ['j', 'z', 'x'] w ||
    (match w with
     | c :: _ => ['q', 'w', 'x', 'z', 'j'].contains c
     | [] => false) ||
    startsWithRun (fun c => !isVowelChar c) 3 w

/-- The check chain of the first/second variant `validateWord` applied to
the already normalised word `n` (the source reassigns
`word = word.toLowerCase().trim()` and runs these checks on it). -/
def validateNormalized (isProfane : Word → Bool) (n : Word) :
    WordValidationResult :=
  if !matchesLowerAlpha n then ⟨false, some "Word must contain only letters"⟩
  else if n.length < 3 || n.length > 9 then
    ⟨false, some "Word must be between 3 and 9 letters"⟩
  else if isProfane n then ⟨false, some "Word is inappropriate"⟩
  else if !hasVowel n then
    ⟨false, some "Word must contain at least one vowel"⟩
  else if hasExcessiveRepetition n then
    ⟨false, some "Word has too many repeated letters"⟩
  else if isAbbreviation n then
    ⟨false, some "Word appears to be an abbreviation or acronym"⟩
  else if hasUKSpelling n then ⟨false, some "UK spelling variant"⟩
  else if hasUncommonPatterns n then
    ⟨false, some "Contains uncommon letter patterns"⟩
  else ⟨true, none⟩

/-- `validateWord` of the first/second variant.  The external `bad-words`
filter is the parameter `isProfane`; the `compromise`-based proper-noun /
place-name / recognised-word checks present only in the third variant do not
occur here. -/
def validateWord (isProfane : Word → Bool) (w : Word) : WordValidationResult :=
  if w.isEmpty then ⟨false, some "Invalid input"⟩
  else validateNormalized isProfane (normalizeWord w)

end V1

namespace V4

/-- The `(maxChar, maxCount)` pair computed by the denylist variant
`hasExcessiveRepetition`: iterate over the letters in first-occurrence order
(JavaScript `Map` insertion order) and keep the first letter achieving the
running maximum count (strict `count > maxCount` updates). -/
def maxPair (w : Word) : Char × Nat :=
  (distinctLetters w).foldl
    (fun p c => if countChar w c > p.2 then (c, countChar w c) else p)
    (' ', 0)

/-- `hasExcessiveRepetition` of the denylist variant: reject when the top
letter count exceeds `Math.floor(len / 2)`, and also when it reaches that
floor while some other letter occurs more than once. -/
def hasExcessiveRepetition (w : Word) : Bool :=
  let p := maxPair w
  if p.2 > w.length / 2 then true
  else if p.2 ≥ w.length / 2 then
    (distinctLetters w).any (fun c => c ≠ p.1 && countChar w c > 1)
  else false

/-- `hasUncommonLetterPatterns` of the denylist variant. -/
def hasUncommonLetterPatterns (w : Word) : Bool :=
  hasAdjacentPair ['q', 'w', 'x', 'z'] w ||
    hasAdjacentPair ['j', 'z', 'x', 'q'] w ||
    (match w with
     | c :: _ => ['q', 'w', 'x', 'z', 'j'].contains c
     | [] => false) ||
    startsWithRun (fun c => !isVowelChar c) 3 w ||
    hasRun (fun c => !isVowelChar c) 4 w

/-- `isUKSpelling` of the denylist variant: the literal regexes `/our$/`,
`/ise$/`, `/yse$/`, `/re$/`, `/ogue$/`, `/ae/`, `/oe/` — the first five
anchored to the end of the word, the last two unanchored. -/
def isUKSpelling (w : Word) : Bool :=
  endsWithSeq ['o', 'u', 'r'] w ||
    endsWithSeq ['i', 's', 'e'] w ||
    endsWithSeq ['y', 's', 'e'] w ||
    endsWithSeq ['r', 'e'] w ||
    endsWithSeq ['o', 'g', 'u', 'e'] w ||
    containsSeq ['a', 'e'] w ||
    containsSeq ['o', 'e'] w

/-- The mutable problem-word state of the denylist variant: the fields
`problemWordsLoaded` and `problemWords` of the `WordFilter` object, which
`loadProblemWords` populates asynchronously. -/
structure ProblemState where
  loaded : Bool
  words : List Word
deriving DecidableEq, Repr

/-- The check chain of the denylist variant `validateWord` applied to the
normalised word `n`: character class, length bounds, profanity, vowel,
repetition, problem-word membership (only once `problemWordsLoaded`),
UK spelling, uncommon letter patterns.  The `bad-words` filter is the
parameter `isProfane`; `ps` is the object state read by the problem-word
check. -/
def validateNormalized (isProfane : Word → Bool) (ps : ProblemState)
    (n : Word) : WordValidationResult :=
  if !matchesLowerAlpha n then ⟨false, some "Word must contain only letters"⟩
  else if n.length < 3 || n.length > 9 then
    ⟨false, some "Word must be between 3 and 9 letters"⟩
  else if isProfane n then ⟨false, some "Word is inappropriate"⟩
  else if !hasVowel n then
    ⟨false, some "Word must contain at least one vowel"⟩
  else if hasExcessiveRepetition n then
    ⟨false, some "Word has problematic letter repetition"⟩
  else if ps.loaded && ps.words.contains n then
    ⟨false, some "Word is in the problematic words list"⟩
  else if isUKSpelling n then ⟨false, some "UK spelling variant"⟩
  else if hasUncommonLetterPatterns n then
    ⟨false, some "Contains uncommon letter patterns"⟩
  else ⟨true, none⟩

/-- `validateWord` of the denylist variant (the last `WordFilter` in
`wordFilter.ts`): reject a falsy argument, normalise, then run the check
chain. -/
def validateWord (isProfane : Word → Bool) (ps : ProblemState) (w : Word) :
    WordValidationResult :=
  if w.isEmpty then ⟨false, some "Invalid input"⟩
  else validateNormalized isProfane ps (normalizeWord w)

/-- `resultWords.add(word)` for a JavaScript `Set` kept in insertion order:
append the element unless it is already present. -/
def addSet (x : Word) (s : List Word) : List Word :=
  if s.contains x then s else s ++ [x]

/-- The sampling-without-replacement loop shared verbatim by
`generateWords` and `generateWordsFromMultipleSources`:

```
while (resultWords.size < count && availableWords.length > 0) {
  const randomIndex = Math.floor(Math.random() * availableWords.length);
  resultWords.add(availableWords[randomIndex]);
  availableWords.splice(randomIndex, 1);
}
```

`Math.random()` is modelled by the index stream `r`: at loop iteration
`step` the drawn index is `r step % avail.length`, which ranges over exactly
the indices `Math.floor(Math.random() * availableWords.length)` can take. -/
def sampleLoop (r : Nat → Nat) (count : Nat) :
    List Word → List Word → Nat → List Word
  | result, avail, step =>
    if h : result.length < count ∧ 0 < avail.length then
      sampleLoop r count
        (addSet (avail.get ⟨r step % avail.length, Nat.mod_lt _ h.2⟩) result)
        (avail.eraseIdx (r step % avail.length)) (step + 1)
    else result
termination_by _result avail _step => avail.length
decreasing_by
  simp only [List.length_eraseIdx, Nat.mod_lt _ h.2, if_pos]
  exact Nat.sub_lt h.2 Nat.one_pos

/-- The whole sampling step of `generateWords` /
`generateWordsFromMultipleSources`: return the pool unchanged when it has at
most `count` elements, otherwise run the selection loop starting from an
empty result set. -/
def sample (r : Nat → Nat) (pool : List Word) (count : Nat) : List Word :=
  if pool.length ≤ count then pool else sampleLoop r count [] pool 0

/-- A persisted-cache slot (`localStorage` entry) as `fetchWordList` reads it
back: absent, present but failing `JSON.parse`, or a parsed
`{data, timestamp}` record. -/
inductive CacheSlot where
  | absent
  | corrupt
  | entry (data : List Word) (timestamp : Nat)
deriving DecidableEq, Repr

/-- The `localStorage` key/value store as seen through
`localStorage.getItem` / `localStorage.setItem`. -/
abbrev Storage := String → CacheSlot

/-- `url.split('/').pop()`: the substring after the last `/` (the whole
string when there is no `/`). -/
def lastSegment (url : String) : String :=
  String.mk ((url.toList.reverse.takeWhile (fun c => c ≠ '/')).reverse)

/-- `const cacheKey = "wordlist_" + url.split('/').pop()`. -/
def cacheKey (url : String) : String :=
  "wordlist_" ++ lastSegment url

/-- The denylist variant freshness window:
`7 * 24 * 60 * 60 * 1000` milliseconds. -/
def freshnessWindow : Nat := 7 * 24 * 60 * 60 * 1000

/-- Environment of one `fetchWordList` call: the current clock
(`Date.now()`) and the network.  `net url` abstracts the whole
GET-with-timeout plus format sniffing of the response body
(JSON / CSV / newline / comma / space split): it yields either the failure
message (non-2xx status, timeout, abort, unparseable JSON) or the token list
the body parses to.  The claims settled here concern only the cache
behaviour downstream of that boundary. -/
structure FetchEnv where
  now : Nat
  net : String → Except String (List Word)

/-- `fetchWordList` of the denylist variant: serve a fresh persisted cache
entry without touching the network; otherwise fetch and parse, keep only
tokens matching `/^[a-z]+$/`, fail on an empty result, and persist
`{data, timestamp: now}` under the URL's cache key. -/
def fetchWordList (env : FetchEnv) (storage : Storage) (url : String) :
    Except String (List Word) × Storage :=
  let key := cacheKey url
  let fetchFresh : Except String (List Word) × Storage :=
    match env.net url with
    | .error e => (.error e, storage)
    | .ok tokens =>
      let filteredWords := tokens.filter (fun w => !w.isEmpty && w.all isLowerAlpha)
      if filteredWords.isEmpty then
        (.error "No valid words found in the word list", storage)
      else
        (.ok filteredWords,
         fun k => if k = key then .entry filteredWords env.now else storage k)
  match storage key with
  | .entry data ts =>
    if env.now - ts < freshnessWindow then (.ok data, storage) else fetchFresh
  | .corrupt => fetchFresh
  | .absent => fetchFresh

/-- The source catalogue `HAPPY_SOURCES` of the denylist variant. -/
def GOOGLE_COMMON_URL : String :=
  "https://raw.githubusercontent.com/first20hours/google-10000-english/master/google-10000-english-usa-no-swears.txt"

def ENABLE_URL : String :=
  "https://raw.githubusercontent.com/dolph/dictionary/master/enable1.txt"

def SCRABBLE_URL : String :=
  "https://raw.githubusercontent.com/redbo/scrabble/master/dictionary.txt"

def WORD_FREQ_URL : String :=
  "https://raw.githubusercontent.com/hermitdave/FrequencyWords/master/content/2018/en/en_50k.txt"

def SIMPLE_WORDS_URL : String :=
  "https://raw.githubusercontent.com/taikuukaits/SimpleWords/master/words.txt"

def WORDLE_ALLOWED_URL : String :=
  "https://raw.githubusercontent.com/tabatkins/wordle-list/main/words"

def WORDLE_ANSWERS_URL : String :=
  "https://gist.githubusercontent.com/cfreshman/a03ef2cba789d8cf00c08f767e0fad7b/raw/a9e55d7e0c08100ce62133a1fa0d9c4f0f542f2c/wordle-answers-alphabetical.txt"

def WORDNIK_URL : String :=
  "https://raw.githubusercontent.com/wordnik/wordlist/main/wordlist.txt"

def COMMON_MULTI_URL : String :=
  "https://raw.githubusercontent.com/skedwards88/word_lists/main/compiled/commonWords.json"

def SINDRESORHUS_URL : String :=
  "https://raw.githubusercontent.com/sindresorhus/word-list/main/words.txt"

def POWERLANGUAGE_URL : String :=
  "https://raw.githubusercontent.com/powerlanguage/word-lists/master/word-list-filtered.txt"

def BROKENSANDALS_URL : String :=
  "https://raw.githubusercontent.com/brokensandals/wordlists/master/common-5-letter-words.txt"

/-- The `switch (source)` of `fetchWordListBySource`, mapping a source id to
its `HAPPY_SOURCES` URL; an unknown id falls through to the default
`GOOGLE_COMMON` URL. -/
def urlFor (source : String) : String :=
  if source = "google_common" then GOOGLE_COMMON_URL
  else if source = "enable" then ENABLE_URL
  else if source = "scrabble" then SCRABBLE_URL
  else if source = "word_freq" then WORD_FREQ_URL
  else if source = "simple_words" then SIMPLE_WORDS_URL
  else if source = "wordle_answers" then WORDLE_ANSWERS_URL
  else if source = "wordle_allowed" then WORDLE_ALLOWED_URL
  else if source = "wordnik" then WORDNIK_URL
  else if source = "common_multi" then COMMON_MULTI_URL
  else if source = "sindresorhus" then SINDRESORHUS_URL
  else if source = "powerlanguage" then POWERLANGUAGE_URL
  else if source = "brokensandals" then BROKENSANDALS_URL
  else GOOGLE_COMMON_URL

/-- The mutable fields of the denylist `WordFilter` object touched by the
fetch/generate pipeline: the in-memory `wordCache` (source id → word list),
the `errorLog` (source id → last error message), and the problem-word
state. -/
structure DState where
  wordCache : String → Option (List Word)
  errorLog : String → Option String
  problem : ProblemState

/-- `fetchWordListBySource` of the denylist variant.  `fetchU url` abstracts
the outcome of `this.fetchWordList(url)` within this call (its own
`localStorage` layer is modelled separately by `fetchWordList` above).
On a cache miss: a successful fetch caches the list under the source id and
clears the source's error-log entry; a failed fetch records the error
message and then, for any source other than `google_common` whose fallback
list is cached, silently returns (and caches) the `google_common` words
instead of raising. -/
def fetchWordListBySource (fetchU : String → Except String (List Word))
    (st : DState) (source : String) : Except String (List Word) × DState :=
  match st.wordCache source with
  | some ws => (.ok ws, st)
  | none =>
    match fetchU (urlFor source) with
    | .ok words =>
      (.ok words,
       { st with
          wordCache := fun k => if k = source then some words else st.wordCache k
          errorLog := fun k => if k = source then none else st.errorLog k })
    | .error e =>
      if source ≠ "google_common" then
        match st.wordCache "google_common" with
        | some commonWords =>
          (.ok commonWords,
           { st with
              wordCache := fun k =>
                if k = source then some commonWords else st.wordCache k
              errorLog := fun k =>
                if k = source then some e else st.errorLog k })
        | none =>
          (.error e,
           { st with
              errorLog := fun k => if k = source then some e else st.errorLog k })
      else
        (.error e,
         { st with
            errorLog := fun k => if k = source then some e else st.errorLog k })

/-- The error taxonomy of `generateWordsFromMultipleSources`; each
constructor stands for one `throw new Error(...)` message:
`noSourcesSelected` for "At least one word source must be selected",
`allSourcesFailed` for "Could not fetch words from any of the selected
sources. Please try again later.", and `noValidWords len` for "No valid
words of length len found in the selected sources.". -/
inductive GenError where
  | noSourcesSelected
  | allSourcesFailed
  | noValidWords (length : Nat)
deriving DecidableEq, Repr

/-- The `WordGenerationResult` record `{words, failedSources}`. -/
structure WordGenerationResult where
  words : List Word
  failedSources : List String
deriving DecidableEq, Repr

/-- Environment of one `generateWordsFromMultipleSources` call: the
per-URL fetch outcome, the external profanity filter, and the problem-word
set `loadProblemWords` would install were it still pending. -/
structure GenEnv where
  fetchU : String → Except String (List Word)
  isProfane : Word → Bool
  loadedProblemWords : List Word

/-- `if (!this.problemWordsLoaded) await this.loadProblemWords()`:
`loadProblemWords` never rejects (every per-source failure is caught and
`Promise.allSettled` is used), so it only installs the problem-word set and
sets the flag. -/
def loadProblemWordsIfNeeded (env : GenEnv) (st : DState) : DState :=
  if st.problem.loaded then st
  else { st with problem := ⟨true, env.loadedProblemWords⟩ }

/-- Accumulator of the per-source loop of
`generateWordsFromMultipleSources`: the dedup set `allWords` (insertion
order), the `failedSources` and `successSources` arrays, and the evolving
object state. -/
structure LoopAcc where
  allWords : List Word
  failedSources : List String
  successSources : List String
  st : DState

/-- One iteration of the `for (const source of sources)` loop: fetch
(tolerating failure), filter to the exact length, and classify the source as
contributing (`successSources`) or failed (`failedSources` — both on a fetch
error and on an empty length-filtered contribution). -/
def processSource (env : GenEnv) (len : Nat) (acc : LoopAcc) (source : String) :
    LoopAcc :=
  match fetchWordListBySource env.fetchU acc.st source with
  | (.ok sourceWords, st') =>
    if 0 < (sourceWords.filter (fun w => w.length = len)).length then
      { allWords := (sourceWords.filter (fun w => w.length = len)).foldl
          (fun aw w => addSet w aw) acc.allWords
        failedSources := acc.failedSources
        successSources := acc.successSources ++ [source]
        st := st' }
    else
      { acc with failedSources := acc.failedSources ++ [source], st := st' }
  | (.error _, st') =>
    { acc with failedSources := acc.failedSources ++ [source], st := st' }

/-- The whole per-source loop. -/
def processSources (env : GenEnv) (len : Nat) (st : DState)
    (sources : List String) : LoopAcc :=
  sources.foldl (processSource env len) ⟨[], [], [], st⟩

/-- The per-source loop as run by `generateWordsFromMultipleSources`,
starting from the state with problem words loaded. -/
def genAcc (env : GenEnv) (st : DState) (len : Nat)
    (sources : List String) : LoopAcc :=
  processSources env len (loadProblemWordsIfNeeded env st) sources

/-- `const validWords = wordsArray.filter(word =>
this.validateWord(word).isValid)`: the merged pool after validation. -/
def validPool (env : GenEnv) (acc : LoopAcc) : List Word :=
  acc.allWords.filter (fun w => (validateWord env.isProfane acc.st.problem w).isValid)

/-- `generateWordsFromMultipleSources` of the denylist variant: reject an
empty selection, load problem words if needed, run the per-source loop,
validate the merged pool, pick the error (`allSourcesFailed` when
`failedSources.length === sources.length`, else `noValidWords`) when the
valid pool is empty, and otherwise sample up to `count` words. -/
def generateWordsFromMultipleSources (env : GenEnv) (r : Nat → Nat)
    (st : DState) (len : Nat) (sources : List String) (count : Nat) :
    Except GenError WordGenerationResult × DState :=
  if sources.isEmpty then (.error .noSourcesSelected, st)
  else if (validPool env (genAcc env st len sources)).isEmpty then
    if (genAcc env st len sources).failedSources.length = sources.length then
      (.error .allSourcesFailed, (genAcc env st len sources).st)
    else (.error (.noValidWords len), (genAcc env st len sources).st)
  else
    (.ok ⟨sample r (validPool env (genAcc env st len sources)) count,
          (genAcc env st len sources).failedSources⟩,
     (genAcc env st len sources).st)

end V4

namespace V2

/-! The second `WordFilter` variant (the one with the `errorLog` and the
generic-word-list fallback for specialised parts-of-speech sources):
its `WORD_CORPORA` table, `detectWordCategory`, and
`fetchWordListBySource` (source lines 920–995).  Unlike the denylist
variant, its success path caches and returns without touching the error
log, and its failure path records the message and rethrows (no
`google_common` fallback). -/

def COMMON_WORDS_URL : String :=
  "https://raw.githubusercontent.com/first20hours/google-10000-english/master/google-10000-english-usa-no-swears.txt"

def NOUNS_URL : String :=
  "https://raw.githubusercontent.com/sindresorhus/word-list/main/words.txt"

def VERBS_URL : String :=
  "https://raw.githubusercontent.com/sindresorhus/word-list/main/words.txt"

def ADJECTIVES_URL : String :=
  "https://raw.githubusercontent.com/sindresorhus/word-list/main/words.txt"

def ADVERBS_URL : String :=
  "https://raw.githubusercontent.com/sindresorhus/word-list/main/words.txt"

def GSL_WORDS_URL : String :=
  "https://raw.githubusercontent.com/openvocabulary/gsl/master/gsl.txt"

def SCOWL_COMMON_URL : String :=
  "https://raw.githubusercontent.com/en-wl/wordlist/master/scowl/final/english-words.35"

def BNC_COMMON_URL : String :=
  "https://raw.githubusercontent.com/first20hours/google-10000-english/master/20k.txt"

def FALLOUT_WORDS_URL : String :=
  "https://raw.githubusercontent.com/nathanlesage/academics/master/randomdata/fallout-terminal-words.txt"

/-- The `switch (source)` of the second-variant `fetchWordListBySource`;
an unknown id defaults to the common-words URL. -/
def urlFor (source : String) : String :=
  if source = "common" then COMMON_WORDS_URL
  else if source = "nouns" then NOUNS_URL
  else if source = "verbs" then VERBS_URL
  else if source = "adjectives" then ADJECTIVES_URL
  else if source = "adverbs" then ADVERBS_URL
  else if source = "gsl" then GSL_WORDS_URL
  else if source = "scowl" then SCOWL_COMMON_URL
  else if source = "bnc" then BNC_COMMON_URL
  else if source = "fallout" then FALLOUT_WORDS_URL
  else COMMON_WORDS_URL

/-- The character class `[aeiou]` used by the `WORD_CATEGORIES` regexes
(note: without `y`, unlike `this.vowels`). -/
def isAeiouChar (c : Char) : Bool :=
  c = 'a' || c = 'e' || c = 'i' || c = 'o' || c = 'u'

/-- A match of an end-anchored regex of the form `/[class]pat$/`: the word
ends with one character of the class followed by `pat`. -/
def endsWithClassSeq (p : Char → Bool) (pat : Word) (w : Word) : Bool :=
  match w.drop (w.length - (pat.length + 1)) with
  | c :: rest => pat.length + 1 ≤ w.length && p c && rest = pat
  | [] => false

/-- `WORD_CATEGORIES.NOUN_PATTERNS.some(pattern => word.match(pattern))`. -/
def isNounPattern (w : Word) : Bool :=
  endsWithClassSeq (fun c => !isAeiouChar c) ['t', 'i', 'o', 'n'] w ||
    endsWithSeq ['m', 'e', 'n', 't'] w ||
    endsWithSeq ['e', 'n', 'c', 'e'] w ||
    endsWithSeq ['a', 'n', 'c', 'e'] w ||
    endsWithSeq ['i', 't', 'y'] w ||
    endsWithSeq ['n', 'e', 's', 's'] w ||
    endsWithSeq ['s', 'h', 'i', 'p'] w ||
    endsWithSeq ['d', 'o', 'm'] w ||
    endsWithSeq ['h', 'o', 'o', 'd'] w ||
    endsWithSeq ['i', 's', 'm'] w

/-- `WORD_CATEGORIES.VERB_PATTERNS.some(pattern => word.match(pattern))`. -/
def isVerbPattern (w : Word) : Bool :=
  endsWithClassSeq isAeiouChar ['t', 'e'] w ||
    endsWithSeq ['i', 'z', 'e'] w ||
    endsWithSeq ['i', 's', 'e'] w ||
    endsWithSeq ['i', 'f', 'y'] w ||
    endsWithSeq ['a', 't', 'e'] w ||
    (match w with
     | 'r' :: 'e' :: c :: _ => !isAeiouChar c
     | _ => false) ||
    endsWithClassSeq isAeiouChar ['n'] w ||
    endsWithClassSeq (fun c => !isAeiouChar c) ['e', 'r'] w

/-- `WORD_CATEGORIES.ADJECTIVE_PATTERNS.some(pattern =>
word.match(pattern))`. -/
def isAdjectivePattern (w : Word) : Bool :=
  endsWithSeq ['f', 'u', 'l'] w ||
    endsWithSeq ['o', 'u', 's'] w ||
    endsWithSeq ['i', 'v', 'e'] w ||
    endsWithSeq ['b', 'l', 'e'] w ||
    endsWithSeq ['c', 'a', 'l'] w ||
    endsWithSeq ['a', 'r', 'y'] w ||
    endsWithSeq ['i', 'c'] w ||
    endsWithSeq ['a', 'l'] w ||
    endsWithSeq ['i', 's', 'h'] w ||
    endsWithSeq ['l', 'i', 'k', 'e'] w ||
    endsWithSeq ['l', 'y'] w

/-- `WORD_CATEGORIES.ADVERB_PATTERNS.some(pattern => word.match(pattern))`. -/
def isAdverbPattern (w : Word) : Bool :=
  endsWithSeq ['l', 'y'] w

/-- The record returned by `detectWordCategory`. -/
structure WordCategoryFlags where
  isNoun : Bool
  isVerb : Bool
  isAdjective : Bool
  isAdverb : Bool
deriving DecidableEq, Repr

/-- `detectWordCategory`: suffix-pattern classification of a word. -/
def detectWordCategory (word : Word) : WordCategoryFlags :=
  ⟨isNounPattern word, isVerbPattern word, isAdjectivePattern word,
   isAdverbPattern word⟩

/-- The mutable fields of the second-variant `WordFilter` touched by its
fetch pipeline. -/
structure WState where
  wordCache : String → Option (List Word)
  errorLog : String → Option String

/-- The category filter applied inside `fetchWordListBySource` when a
specialised source is served by the generic word list: keep the words whose
detected category matches the requested source (the inner `switch`
defaults to keeping the word). -/
def categoryFiltered (source : String) (wordsList : List Word) : List Word :=
  wordsList.filter (fun word =>
    if source = "nouns" then (detectWordCategory word).isNoun
    else if source = "verbs" then (detectWordCategory word).isVerb
    else if source = "adjectives" then (detectWordCategory word).isAdjective
    else if source = "adverbs" then (detectWordCategory word).isAdverb
    else true)

/-- `fetchWordListBySource` of the second variant: cache check, URL switch,
fetch (`fetchU` abstracts `this.fetchWordList(url)` as in the denylist
model), category filtering when `url === WORD_CORPORA.NOUNS`, caching; on
failure the message is recorded in the error log and the error rethrown.
The success path never touches the error log — there is no
`errorLog.delete` in this variant. -/
def fetchWordListBySource (fetchU : String → Except String (List Word))
    (st : WState) (source : String) : Except String (List Word) × WState :=
  match st.wordCache source with
  | some ws => (.ok ws, st)
  | none =>
    match fetchU (urlFor source) with
    | .ok wordsList =>
      if (source = "nouns" || source = "verbs" || source = "adjectives" ||
          source = "adverbs") && urlFor source = NOUNS_URL then
        (.ok (categoryFiltered source wordsList),
         { st with
            wordCache := fun k =>
              if k = source then some (categoryFiltered source wordsList)
              else st.wordCache k })
      else
        (.ok wordsList,
         { st with
            wordCache := fun k =>
              if k = source then some wordsList else st.wordCache k })
    | .error e =>
      (.error e,
       { st with
          errorLog := fun k =>
            if k = source then some e else st.errorLog k })

end V2

/-! ## Concrete fixtures used by witnesses and counterexamples -/

/-- A profanity predicate flagging nothing: stands in for the concrete
`bad-words` filter at inputs (like ordinary fruit names) that its denylist
does not contain. -/
def noProfanity : Word → Bool := fun _ => false

def appleW : Word := "apple".toList

def lemonW : Word := "lemon".toList

def dogW : Word := "dog".toList

/-- A fresh denylist `WordFilter` object state: empty caches, problem words
loaded as the empty set. -/
def emptyDState : V4.DState := ⟨fun _ => none, fun _ => none, ⟨true, []⟩⟩

/-- An object state whose in-memory cache holds the preloaded
`google_common` list `[appleW]`. -/
def cachedDState : V4.DState :=
  ⟨fun k => if k = "google_common" then some [appleW] else none,
   fun _ => none, ⟨true, []⟩⟩

/-- A network in which the `enable` corpus serves three words and every
other URL fails with an HTTP 404 error. -/
def env404 : V4.GenEnv :=
  { fetchU := fun u =>
      if u = V4.urlFor "enable" then .ok [appleW, lemonW, dogW]
      else .error "Failed to fetch word list: 404 Not Found"
    isProfane := noProfanity
    loadedProblemWords := [] }

/-- A persisted cache holding one fresh entry for the fixture URL. -/
def demoStorage : V4.Storage :=
  fun k =>
    if k = V4.cacheKey "https://host/words.txt" then .entry [appleW] 1000
    else .absent

/-- A second-variant object state with no cached lists and a stale error
recorded for `gsl` by an earlier failed fetch. -/
def staleV2State : V2.WState :=
  ⟨fun _ => none,
   fun k => if k = "gsl" then some "Failed to fetch word list: 503" else none⟩

/-- A fresh second-variant object state. -/
def freshV2State : V2.WState := ⟨fun _ => none, fun _ => none⟩

/-! ## Helper lemmas -/

theorem dropWhile_eq_self_of_all {p : Char → Bool} {l : List Char}
    (h : ∀ c ∈ l, p c = false) : l.dropWhile p = l := by
  cases l with
  | nil => rfl
  | cons c t => simp [List.dropWhile_cons, h c (List.mem_cons_self c t)]

theorem trimList_eq_self {l : List Char}
    (h : ∀ c ∈ l, isWhitespace c = false) : trimList l = l := by
  unfold trimList
  rw [dropWhile_eq_self_of_all h, dropWhile_eq_self_of_all, List.reverse_reverse]
  intro c hc
  exact h c (List.mem_reverse.mp hc)

theorem lowerChar_of_lower {c : Char} (h : isLowerAlpha c = true) :
    lowerChar c = c := by
  unfold isLowerAlpha at h
  simp only [Bool.and_eq_true, decide_eq_true_eq] at h
  have hu : ¬ (isUpperAlpha c = true) := by
    unfold isUpperAlpha
    simp only [Bool.and_eq_true, decide_eq_true_eq, not_and]
    omega
  unfold lowerChar
  rw [if_neg hu]

theorem isWhitespace_of_lower {c : Char} (h : isLowerAlpha c = true) :
    isWhitespace c = false := by
  by_contra hc
  rw [Bool.not_eq_false] at hc
  unfold isWhitespace at hc
  unfold isLowerAlpha at h
  simp only [Bool.or_eq_true, decide_eq_true_eq] at hc
  simp only [Bool.and_eq_true, decide_eq_true_eq] at h
  rcases hc with ((h1 | h1) | h1) | h1 <;> (subst h1; revert h; decide)

/-- Already lowercase alphabetic words are fixed by the
`toLowerCase().trim()` normalisation. -/
theorem normalizeWord_eq_self {w : Word} (h : w.all isLowerAlpha = true) :
    normalizeWord w = w := by
  rw [List.all_eq_true] at h
  unfold normalizeWord
  have hmap : ∀ l : List Char, (∀ c ∈ l, isLowerAlpha c = true) →
      l.map lowerChar = l := by
    intro l
    induction l with
    | nil => intro _; rfl
    | cons c t ih =>
      intro hl
      have hc := lowerChar_of_lower (hl c (List.mem_cons_self c t))
      have ht : t.map lowerChar = t :=
        ih (fun d hd => hl d (List.mem_cons_of_mem c hd))
      simp only [List.map_cons, hc, ht]
  rw [hmap w h]
  exact trimList_eq_self (fun c hc => isWhitespace_of_lower (h c hc))

theorem mem_distinctLetters {w : Word} {c : Char} (h : c ∈ w) :
    c ∈ distinctLetters w := by
  induction w with
  | nil => cases h
  | cons d t ih =>
    unfold distinctLetters
    rcases List.mem_cons.mp h with rfl | ht
    · exact List.mem_cons_self _ _
    · by_cases hdc : c = d
      · subst hdc; exact List.mem_cons_self _ _
      · refine List.mem_cons_of_mem _ (List.mem_filter.mpr ⟨ih ht, ?_⟩)
        simp [hdc]

theorem countChar_eq_zero {w : Word} {c : Char} (h : c ∉ w) :
    countChar w c = 0 := by
  unfold countChar
  rw [List.length_eq_zero, List.filter_eq_nil_iff]
  intro a ha
  simp only [decide_eq_true_eq]
  intro he
  subst he
  exact h ha

/-- Every letter count is bounded by the second component of `maxPair`. -/
theorem countChar_le_maxPair {w : Word} (c : Char) :
    countChar w c ≤ (V4.maxPair w).2 := by
  by_cases hc : c ∈ w
  · have hmem := mem_distinctLetters hc
    unfold V4.maxPair
    have hmono : ∀ (t : List Char) (i : Char × Nat),
        i.2 ≤ (t.foldl
          (fun p d => if countChar w d > p.2 then (d, countChar w d) else p)
          i).2 := by
      intro t
      induction t with
      | nil => intro i; exact le_refl _
      | cons e s ihs =>
        intro i
        simp only [List.foldl_cons]
        refine le_trans ?_ (ihs _)
        by_cases hgt : countChar w e > i.2
        · rw [if_pos hgt]; exact le_of_lt hgt
        · rw [if_neg hgt]
    have hin : ∀ (l : List Char) (i : Char × Nat), c ∈ l →
        countChar w c ≤ (l.foldl
          (fun p d => if countChar w d > p.2 then (d, countChar w d) else p)
          i).2 := by
      intro l
      induction l with
      | nil => intro i hcl; cases hcl
      | cons e s ihs =>
        intro i hcl
        rcases List.mem_cons.mp hcl with rfl | hs
        · simp only [List.foldl_cons]
          refine le_trans ?_ (hmono s _)
          by_cases hgt : countChar w c > i.2
          · rw [if_pos hgt]
          · rw [if_neg hgt]; omega
        · simp only [List.foldl_cons]
          exact ihs _ hs
    exact hin _ _ hmem
  · rw [countChar_eq_zero hc]
    exact Nat.zero_le _

/-- If the denylist `hasExcessiveRepetition` does not fire, every letter
occurs at most `⌊len / 2⌋` times. -/
theorem V4.count_le_of_not_excessive {w : Word}
    (h : V4.hasExcessiveRepetition w = false) (c : Char) :
    countChar w c ≤ w.length / 2 := by
  have hle := countChar_le_maxPair (w := w) c
  by_cases hgt : (V4.maxPair w).2 > w.length / 2
  · exfalso
    unfold hasExcessiveRepetition at h
    rw [if_pos hgt] at h
    exact Bool.true_eq_false.mp h
  · omega

/-- Everything a word accepted by the denylist check chain satisfies. -/
theorem V4.validateNormalized_sound {pf : Word → Bool} {ps : V4.ProblemState}
    {n : Word} (h : (V4.validateNormalized pf ps n).isValid = true) :
    matchesLowerAlpha n = true ∧ 3 ≤ n.length ∧ n.length ≤ 9 ∧
    pf n = false ∧ hasVowel n = true ∧
    V4.hasExcessiveRepetition n = false ∧
    (ps.loaded && ps.words.contains n) = false ∧
    V4.isUKSpelling n = false ∧ V4.hasUncommonLetterPatterns n = false := by
  unfold V4.validateNormalized at h
  repeat' split at h
  all_goals simp_all

/-- Everything a word accepted by the first-variant check chain satisfies. -/
theorem V1.validateNormalizedFirst_sound {pf : Word → Bool}
    {n : Word} (h : (V1.validateNormalized pf n).isValid = true) :
    matchesLowerAlpha n = true ∧ 3 ≤ n.length ∧ n.length ≤ 9 ∧
    pf n = false ∧ hasVowel n = true ∧
    V1.hasExcessiveRepetition n = false ∧ V1.isAbbreviation n = false ∧
    V1.hasUKSpelling n = false ∧ V1.hasUncommonPatterns n = false := by
  unfold V1.validateNormalized at h
  repeat' split at h
  all_goals simp_all

/-! ## C1 — soundness of the accepted-word set of the denylist
`validateWord`.

The claim as frozen asserts the properties of the *argument* `w` itself, but
`validateWord` normalises its argument (`word.toLowerCase().trim()`) before
all checks, so e.g. `validateWord "Apple"` is accepted although `"Apple"`
does not match `/^[a-z]+$/` (counterexample below).  The amended statement
asserts the properties of the normalised word; for an argument that is
already lowercase and trimmed, `normalizeWord w = w`
(`normalizeWord_eq_self`), so the original claim follows for those. -/

/-- **C1 (amended)**: every word accepted by the denylist `validateWord`
has a normalisation that matches `^[a-z]+$`, has length between 3 and 9,
contains one of `a,e,i,o,u,y`, and no letter of it occurs more than
`⌈len/2⌉` times. -/
theorem V4.validateWord_accepted_sound (pf : Word → Bool)
    (ps : V4.ProblemState) (w : Word)
    (h : (V4.validateWord pf ps w).isValid = true) :
    matchesLowerAlpha (normalizeWord w) = true ∧
    3 ≤ (normalizeWord w).length ∧ (normalizeWord w).length ≤ 9 ∧
    hasVowel (normalizeWord w) = true ∧
    ∀ c, countChar (normalizeWord w) c ≤ ((normalizeWord w).length + 1) / 2 := by
  unfold V4.validateWord at h
  split at h
  · simp at h
  · have hs := V4.validateNormalized_sound h
    refine ⟨hs.1, hs.2.1, hs.2.2.1, hs.2.2.2.2.1, fun c => ?_⟩
    have hc := V4.count_le_of_not_excessive hs.2.2.2.2.2.1 c
    omega

/-- Witness for C1: `"apple"` is accepted and satisfies all the asserted
properties. -/
theorem V4.validateWord_accepted_sound_witness :
    matchesLowerAlpha (normalizeWord appleW) = true ∧
    3 ≤ (normalizeWord appleW).length ∧ (normalizeWord appleW).length ≤ 9 ∧
    hasVowel (normalizeWord appleW) = true ∧
    ∀ c, countChar (normalizeWord appleW) c ≤
      ((normalizeWord appleW).length + 1) / 2 :=
  V4.validateWord_accepted_sound noProfanity ⟨true, []⟩ appleW (by decide)

/-- Counterexample to C1 as frozen: `validateWord` accepts the argument
`"Apple"` (it validates the lowercased word), yet `"Apple"` itself does not
match `/^[a-z]+$/`. -/
theorem V4.validateWord_accepted_sound_counterexample :
    (V4.validateWord noProfanity ⟨true, []⟩ "Apple".toList).isValid = true ∧
    matchesLowerAlpha "Apple".toList = false := by decide

/-! ## C6 — purity of the denylist `validateWord`.

The call itself performs no I/O and mutates nothing, but its result reads
the mutable fields `problemWordsLoaded` / `problemWords`, which
`loadProblemWords` changes asynchronously during the object lifetime, so two
calls with the same word at different points of the lifetime can disagree
(counterexample below: the same word before and after the problem-word list
finishes loading).  The amended statement is the exact dependence: the
result depends on the object state only through the test
`problemWordsLoaded && problemWords.has(word)`. -/

/-- **C6 (amended)**: `validateWord` is a function of its word argument and
of the single boolean `ps.loaded && ps.words.contains (normalizeWord w)`;
two object states agreeing on that test give identical results. -/
theorem V4.validateWord_state_dependence (pf : Word → Bool)
    (ps ps' : V4.ProblemState) (w : Word)
    (h : (ps.loaded && ps.words.contains (normalizeWord w)) =
         (ps'.loaded && ps'.words.contains (normalizeWord w))) :
    V4.validateWord pf ps w = V4.validateWord pf ps' w := by
  unfold V4.validateWord V4.validateNormalized
  rw [h]

/-- Witness for C6 (amended): two different problem states agreeing on the
membership test validate `"apple"` identically. -/
theorem V4.validateWord_state_dependence_witness :
    V4.validateWord noProfanity ⟨false, [appleW]⟩ appleW =
      V4.validateWord noProfanity ⟨true, []⟩ appleW :=
  V4.validateWord_state_dependence noProfanity ⟨false, [appleW]⟩ ⟨true, []⟩
    appleW (by decide)

/-- Counterexample to C6 as frozen: the same call at two points of the
object lifetime (before and after `loadProblemWords` installs a list
containing `"apple"`) returns different results, so `validateWord` is not a
deterministic function of the word alone. -/
theorem V4.validateWord_state_dependence_counterexample :
    V4.validateWord noProfanity ⟨false, [appleW]⟩ appleW ≠
      V4.validateWord noProfanity ⟨true, [appleW]⟩ appleW := by decide

/-! ## C10 — accepted three-letter words have at most one consonant
(first/second variant, whose `validateWord` runs `isAbbreviation`). -/

theorem V1.isAbbreviation_short_consonants {w : Word}
    (h : V1.isAbbreviation w = false) (hlen : w.length ≤ 3) :
    (w.filter (fun c => !isVowelChar c)).length ≤ 1 := by
  unfold V1.isAbbreviation at h
  repeat' split at h
  all_goals simp_all
  omega

/-- **C10**: every lowercase alphabetic word of length exactly 3 accepted by
the first/second-variant `validateWord` has at most one consonant, i.e. at
least two of its three letters are in `{a,e,i,o,u,y}`: the abbreviation
heuristic rejects any word of length ≤ 3 with ≥ 2 consonants
(`isAbbreviation_short_consonants`), and the length bound rejects anything
shorter. -/
theorem V1.validateWord_length3_two_vowels (pf : Word → Bool) (w : Word)
    (hlow : w.all isLowerAlpha = true) (hlen : w.length = 3)
    (h : (V1.validateWord pf w).isValid = true) :
    (w.filter (fun c => !isVowelChar c)).length ≤ 1 ∧
    2 ≤ (w.filter isVowelChar).length := by
  have hn : normalizeWord w = w := normalizeWord_eq_self hlow
  unfold V1.validateWord at h
  split at h
  · simp at h
  · rw [hn] at h
    have hs := V1.validateNormalizedFirst_sound h
    have habb := hs.2.2.2.2.2.2.1
    have h1 : (w.filter (fun c => !isVowelChar c)).length ≤ 1 :=
      V1.isAbbreviation_short_consonants habb (by omega)
    have hpart := List.length_eq_length_filter_add (l := w) isVowelChar
    exact ⟨h1, by omega⟩

/-- Witness for C10: `"ape"` (consonant `p` only) is accepted at length 3. -/
theorem V1.validateWord_length3_two_vowels_witness :
    ("ape".toList.filter (fun c => !isVowelChar c)).length ≤ 1 ∧
    2 ≤ ("ape".toList.filter isVowelChar).length :=
  V1.validateWord_length3_two_vowels noProfanity "ape".toList
    (by decide) (by decide) (by decide)

/-! ## C5 — a fresh persisted cache entry is served verbatim, with no
network request.

The network `net` is universally quantified and absent from the conclusion:
the call returns exactly the cached `data` and leaves the store unchanged
whatever the network would do, which is the only sense in which "issues no
network request" is expressible in this embedding. -/

/-- **C5**: if the persisted cache holds an entry for the URL whose age is
within the freshness window, `fetchWordList` returns exactly the cached word
list and does not consult the network. -/
theorem V4.fetchWordList_cache_hit (now : Nat)
    (net : String → Except String (List Word)) (storage : V4.Storage)
    (url : String) (data : List Word) (ts : Nat)
    (hentry : storage (V4.cacheKey url) = .entry data ts)
    (hfresh : now - ts < V4.freshnessWindow) :
    V4.fetchWordList ⟨now, net⟩ storage url = (.ok data, storage) := by
  simp only [V4.fetchWordList]
  rw [hentry]
  simp [hfresh]

/-- Witness for C5: a concrete store with a fresh entry is served verbatim
against a network that always fails. -/
theorem V4.fetchWordList_cache_hit_witness :
    V4.fetchWordList ⟨2000, fun _ => .error "network down"⟩ demoStorage
      "https://host/words.txt" = (.ok [appleW], demoStorage) :=
  V4.fetchWordList_cache_hit 2000 (fun _ => .error "network down") demoStorage
    "https://host/words.txt" [appleW] 1000 (by decide) (by decide)

/-! ## Error-log discipline of `fetchWordListBySource`.

"Successful fetch" / "failed fetch" refer to the outcome of the underlying
`this.fetchWordList(url)` call (a cache-hit return does not touch the log,
and a failed fetch recovered by the `google_common` fallback still records
its error — see C9).  The clear-on-success behaviour below is specific to
the denylist variant; the second variant never clears (see the C8
correction further down). -/

/-- Denylist variant: on a cache miss, a successful fetch leaves no
error-log entry for the source (clearing any previous one) and returns the
fetched list, while a failed fetch maps the source id to the failure's
message (whether or not the fallback then recovers the call). -/
theorem V4.fetchWordListBySource_errorLog
    (f : String → Except String (List Word)) (st : V4.DState) (s : String)
    (hmiss : st.wordCache s = none) :
    (∀ ws, f (V4.urlFor s) = .ok ws →
      (V4.fetchWordListBySource f st s).1 = .ok ws ∧
      (V4.fetchWordListBySource f st s).2.errorLog s = none) ∧
    (∀ e, f (V4.urlFor s) = .error e →
      (V4.fetchWordListBySource f st s).2.errorLog s = some e) := by
  simp only [V4.fetchWordListBySource]
  rw [hmiss]
  constructor
  · intro ws hok
    rw [hok]
    simp
  · intro e herr
    rw [herr]
    simp only []
    split
    · split
      · simp
      · simp
    · simp

/-- Concrete instance of the denylist error-log lemma: on the fixture
network, fetching `enable` succeeds and leaves no log entry, while fetching
`scrabble` fails and logs the 404 message. -/
theorem V4.fetchWordListBySource_errorLog_witness :
    (V4.fetchWordListBySource env404.fetchU emptyDState "enable").1 =
      .ok [appleW, lemonW, dogW] ∧
    (V4.fetchWordListBySource env404.fetchU emptyDState "enable").2.errorLog
      "enable" = none ∧
    (V4.fetchWordListBySource env404.fetchU emptyDState "scrabble").2.errorLog
      "scrabble" = some "Failed to fetch word list: 404 Not Found" := by
  have hok := (V4.fetchWordListBySource_errorLog env404.fetchU emptyDState
    "enable" (by decide)).1 [appleW, lemonW, dogW] (by decide)
  have herr := (V4.fetchWordListBySource_errorLog env404.fetchU emptyDState
    "scrabble" (by decide)).2 "Failed to fetch word list: 404 Not Found"
    (by decide)
  exact ⟨hok.1, hok.2, herr⟩

/-! ## C7 — the regional-spelling heuristic.

The denylist variant `isUKSpelling` matches exactly the claimed pattern set,
with `our$`, `ise$`, `yse$` (and `re$`, `ogue$`) anchored to the end.  But
the first/second-variant `hasUKSpelling` — also cited by the claim — builds
its regexes from the entries `'our'`, `'ise'`, `'yse'` without anchors, so
those three match anywhere: `"journal"` contains `our` strictly inside,
matches none of the claimed patterns, and is still rejected
(counterexample below). -/

theorem endsWithSeq_iff (pat w : Word) :
    endsWithSeq pat w = true ↔ ∃ u, u ++ pat = w := by
  unfold endsWithSeq
  rw [List.isSuffixOf_iff_suffix]
  exact Iff.rfl

theorem containsSeq_iff (pat w : Word) :
    containsSeq pat w = true ↔ ∃ u v, u ++ pat ++ v = w := by
  induction w with
  | nil =>
    unfold containsSeq
    rw [List.isEmpty_iff]
    constructor
    · intro h
      exact ⟨[], [], by simp [h]⟩
    · rintro ⟨u, v, huv⟩
      rcases List.append_eq_nil.mp huv with ⟨h1, _⟩
      exact (List.append_eq_nil.mp h1).2
  | cons c t ih =>
    unfold containsSeq
    rw [Bool.or_eq_true]
    constructor
    · rintro (hp | hc)
      · rcases List.isPrefixOf_iff_prefix.mp hp with ⟨s, hs⟩
        exact ⟨[], s, by simpa using hs⟩
      · rcases ih.mp hc with ⟨u, v, huv⟩
        exact ⟨c :: u, v, by simp [huv]⟩
    · rintro ⟨u, v, huv⟩
      cases u with
      | nil =>
        left
        apply List.isPrefixOf_iff_prefix.mpr
        exact ⟨v, by simpa using huv⟩
      | cons d u' =>
        right
        apply ih.mpr
        refine ⟨u', v, ?_⟩
        have hh : d = c ∧ u' ++ pat ++ v = t := by simpa using huv
        exact hh.2

/-- **C7 (amended)**: the denylist-variant regional-spelling check
`isUKSpelling` fires exactly on the claimed pattern set — `our`, `ise`,
`yse`, `re`, `ogue` at the end of the word only, `ae`, `oe` anywhere; in the
first/second variant, however, `hasUKSpelling` compiles `'our'`, `'ise'`,
`'yse'` unanchored, so there those three fire anywhere in the word (see the
counterexample). -/
theorem V4.isUKSpelling_iff (w : Word) :
    V4.isUKSpelling w = true ↔
      (∃ u, u ++ ['o', 'u', 'r'] = w) ∨ (∃ u, u ++ ['i', 's', 'e'] = w) ∨
      (∃ u, u ++ ['y', 's', 'e'] = w) ∨ (∃ u, u ++ ['r', 'e'] = w) ∨
      (∃ u, u ++ ['o', 'g', 'u', 'e'] = w) ∨
      (∃ u v, u ++ ['a', 'e'] ++ v = w) ∨
      (∃ u v, u ++ ['o', 'e'] ++ v = w) := by
  unfold V4.isUKSpelling
  simp only [Bool.or_eq_true, endsWithSeq_iff, containsSeq_iff, or_assoc]

/-- Counterexample to C7 as frozen: `"journal"` contains `our` strictly
inside, matches none of the claimed (anchored) patterns — the denylist
`isUKSpelling` indeed returns `false` — yet the first/second-variant
regional-spelling check fires and `validateWord` rejects it as a UK
spelling variant. -/
theorem V1.hasUKSpelling_counterexample :
    V1.hasUKSpelling "journal".toList = true ∧
    V4.isUKSpelling "journal".toList = false ∧
    V1.validateWord noProfanity "journal".toList =
      ⟨false, some "UK spelling variant"⟩ := by decide

/-! ## C3 — the sampling step. -/

theorem ne_get_of_mem_eraseIdx {α : Type} {l : List α} (hl : l.Nodup) :
    ∀ (i : Nat) (hi : i < l.length) (w : α),
      w ∈ l.eraseIdx i → w ≠ l.get ⟨i, hi⟩ := by
  induction l with
  | nil => intro i hi; simp at hi
  | cons a t ihl =>
    intro i hi w hw
    cases i with
    | zero =>
      simp only [List.eraseIdx] at hw
      intro he
      rw [List.get] at he
      subst he
      exact (List.nodup_cons.mp hl).1 hw
    | succ j =>
      simp only [List.eraseIdx, List.mem_cons] at hw
      have hj : j < t.length := by simpa using hi
      rcases hw with rfl | hw'
      · intro he
        rw [List.get] at he
        have hmem : t.get ⟨j, hj⟩ ∈ t := t.get_mem _ _
        exact (List.nodup_cons.mp hl).1 (he ▸ hmem)
      · intro he
        rw [List.get] at he
        exact ihl (List.nodup_cons.mp hl).2 j hj w hw' he

/-- Invariant of the selection loop: starting from a duplicate-free result
disjoint from a duplicate-free candidate list, the loop returns a
duplicate-free list drawn from the two, of length
`max result.length (min count (result.length + avail.length))`. -/
theorem V4.sampleLoop_spec (r : Nat → Nat) (count : Nat) :
    ∀ (n : Nat) (avail : List Word), avail.length = n →
      ∀ (result : List Word) (step : Nat),
      result.Nodup → avail.Nodup → (∀ w ∈ avail, w ∉ result) →
      (V4.sampleLoop r count result avail step).Nodup ∧
      (∀ w ∈ V4.sampleLoop r count result avail step, w ∈ result ∨ w ∈ avail) ∧
      (V4.sampleLoop r count result avail step).length =
        max result.length (min count (result.length + avail.length)) := by
  intro n
  induction n using Nat.strong_induction_on with
  | _ n ih =>
    intro avail hn result step hr ha hd
    unfold V4.sampleLoop
    split
    · rename_i h
      have hi : r step % avail.length < avail.length := Nat.mod_lt _ h.2
      have hxa : avail.get ⟨r step % avail.length, hi⟩ ∈ avail := avail.get_mem _ _
      have hxr : avail.get ⟨r step % avail.length, hi⟩ ∉ result := hd _ hxa
      have haddset : V4.addSet (avail.get ⟨r step % avail.length, hi⟩) result =
          result ++ [avail.get ⟨r step % avail.length, hi⟩] := by
        unfold V4.addSet
        rw [if_neg]
        simpa using hxr
      have hnodup_r : (result ++ [avail.get ⟨r step % avail.length, hi⟩]).Nodup := by
        rw [List.nodup_append]
        refine ⟨hr, List.nodup_singleton _, ?_⟩
        simpa [List.disjoint_singleton] using hxr
      have herase_nodup : (avail.eraseIdx (r step % avail.length)).Nodup :=
        List.Nodup.sublist (List.eraseIdx_sublist _ _) ha
      have hdisj : ∀ w ∈ avail.eraseIdx (r step % avail.length),
          w ∉ result ++ [avail.get ⟨r step % avail.length, hi⟩] := by
        intro w hw
        have hwa : w ∈ avail := (List.eraseIdx_sublist _ _).subset hw
        have hwx := ne_get_of_mem_eraseIdx ha _ hi w hw
        simp only [List.mem_append, List.mem_singleton]
        rintro (hwr | hwxeq)
        · exact hd w hwa hwr
        · exact hwx hwxeq
      have hlen_erase : (avail.eraseIdx (r step % avail.length)).length =
          avail.length - 1 := by
        rw [List.length_eraseIdx, if_pos hi]
      have hlt : (avail.eraseIdx (r step % avail.length)).length < n := by omega
      obtain ⟨ih1, ih2, ih3⟩ := ih _ hlt _ rfl
        (result ++ [avail.get ⟨r step % avail.length, hi⟩]) (step + 1)
        hnodup_r herase_nodup hdisj
      rw [haddset]
      refine ⟨ih1, ?_, ?_⟩
      · intro w hw
        rcases ih2 w hw with hw1 | hw2
        · rcases List.mem_append.mp hw1 with h1 | h2
          · exact Or.inl h1
          · right
            rw [List.mem_singleton.mp h2]
            exact hxa
        · exact Or.inr ((List.eraseIdx_sublist _ _).subset hw2)
      · rw [ih3]
        simp only [List.length_append, List.length_singleton]
        have hc := h.1
        have hp := h.2
        omega
    · rename_i h
      rw [not_and_or] at h
      refine ⟨hr, fun w hw => Or.inl hw, ?_⟩
      rcases h with h1 | h2
      · simp only [not_lt] at h1
        omega
      · simp only [not_lt] at h2
        omega

/-- **C3**: for every duplicate-free pool and every count, the sampling step
of `generateWords` / `generateWordsFromMultipleSources` returns a
duplicate-free list of elements of the pool whose length is
`min count pool.length`; in particular the pool is returned unchanged when
`pool.length ≤ count`, and exactly `count` distinct elements otherwise. -/
theorem V4.sample_spec (r : Nat → Nat) (pool : List Word) (count : Nat)
    (hpool : pool.Nodup) :
    (V4.sample r pool count).Nodup ∧
    (∀ w ∈ V4.sample r pool count, w ∈ pool) ∧
    (V4.sample r pool count).length = min count pool.length ∧
    (pool.length ≤ count → V4.sample r pool count = pool) := by
  unfold V4.sample
  by_cases hle : pool.length ≤ count
  · rw [if_pos hle]
    exact ⟨hpool, fun w hw => hw, by omega, fun _ => rfl⟩
  · rw [if_neg hle]
    obtain ⟨h1, h2, h3⟩ := V4.sampleLoop_spec r count pool.length pool rfl [] 0
      List.nodup_nil hpool (by simp)
    refine ⟨h1, ?_, ?_, ?_⟩
    · intro w hw
      rcases h2 w hw with hmem | hmem
      · simp at hmem
      · exact hmem
    · rw [h3]
      simp only [List.length_nil, Nat.zero_add]
      omega
    · intro hc
      exact absurd hc hle

/-- Witness for C3: sampling one word from the two-element pool
`[appleW, lemonW]`. -/
theorem V4.sample_spec_witness :
    (V4.sample (fun _ => 0) [appleW, lemonW] 1).Nodup ∧
    (∀ w ∈ V4.sample (fun _ => 0) [appleW, lemonW] 1, w ∈ [appleW, lemonW]) ∧
    (V4.sample (fun _ => 0) [appleW, lemonW] 1).length =
      min 1 [appleW, lemonW].length ∧
    ([appleW, lemonW].length ≤ 1 →
      V4.sample (fun _ => 0) [appleW, lemonW] 1 = [appleW, lemonW]) :=
  V4.sample_spec (fun _ => 0) [appleW, lemonW] 1 (by decide)

/-! ## Case lemmas for `fetchWordListBySource` and the per-source loop -/

/-- Fetching source `x` never touches another source's cache slot. -/
theorem V4.fetchWordListBySource_cache_other
    (f : String → Except String (List Word))
    (st : V4.DState) (x k : String) (hk : k ≠ x) :
    (V4.fetchWordListBySource f st x).2.wordCache k = st.wordCache k := by
  unfold V4.fetchWordListBySource
  split
  · rfl
  · split
    · simp [hk]
    · split
      · split
        · simp [hk]
        · rfl
      · rfl

/-- A cache hit returns the cached list and leaves the state unchanged. -/
theorem V4.fetchWordListBySource_cache_hit
    (f : String → Except String (List Word))
    (st : V4.DState) (x : String) (ws : List Word)
    (h : st.wordCache x = some ws) :
    V4.fetchWordListBySource f st x = (.ok ws, st) := by
  unfold V4.fetchWordListBySource
  rw [h]

/-- A failed fetch with no cached `google_common` fallback propagates the
error, recording it in the error log. -/
theorem V4.fetchWordListBySource_error_nofallback
    (f : String → Except String (List Word))
    (st : V4.DState) (x : String) (e : String)
    (hmiss : st.wordCache x = none) (herr : f (V4.urlFor x) = .error e)
    (hgc : st.wordCache "google_common" = none) :
    V4.fetchWordListBySource f st x =
      (.error e,
       { st with
          errorLog := fun k => if k = x then some e else st.errorLog k }) := by
  unfold V4.fetchWordListBySource
  rw [hmiss, herr]
  by_cases hx : x = "google_common"
  · simp [hx]
  · simp only [ne_eq, hx, not_false_eq_true, if_true]
    rw [hgc]

/-- A failed fetch of a source other than `google_common`, with the
`google_common` list cached, silently returns the fallback list, caches it
under the failed source's id, and still records the error. -/
theorem V4.fetchWordListBySource_error_fallback
    (f : String → Except String (List Word))
    (st : V4.DState) (x : String) (e : String) (cw : List Word)
    (hmiss : st.wordCache x = none) (herr : f (V4.urlFor x) = .error e)
    (hx : x ≠ "google_common") (hgc : st.wordCache "google_common" = some cw) :
    V4.fetchWordListBySource f st x =
      (.ok cw,
       { st with
          wordCache := fun k => if k = x then some cw else st.wordCache k
          errorLog := fun k => if k = x then some e else st.errorLog k }) := by
  unfold V4.fetchWordListBySource
  rw [hmiss, herr]
  simp only [ne_eq, hx, not_false_eq_true, if_true]
  rw [hgc]

/-- Each loop iteration classifies its source as exactly one of failed /
succeeded. -/
theorem V4.processSource_partition (env : V4.GenEnv) (len : Nat)
    (acc : V4.LoopAcc) (s : String) :
    (V4.processSource env len acc s).failedSources.length +
      (V4.processSource env len acc s).successSources.length =
      acc.failedSources.length + acc.successSources.length + 1 := by
  unfold V4.processSource
  split
  · split
    · simp
      omega
    · simp
      omega
  · simp
    omega

/-- Over the whole loop, `failedSources` and `successSources` partition the
(multiset of) selected sources. -/
theorem V4.processSources_partition (env : V4.GenEnv) (len : Nat) :
    ∀ (sources : List String) (acc : V4.LoopAcc),
      (sources.foldl (V4.processSource env len) acc).failedSources.length +
        (sources.foldl (V4.processSource env len) acc).successSources.length =
        acc.failedSources.length + acc.successSources.length + sources.length := by
  intro sources
  induction sources with
  | nil => intro acc; simp
  | cons s t ih =>
    intro acc
    simp only [List.foldl_cons, List.length_cons]
    rw [ih, processSource_partition]
    omega

/-! ## C2 — error selection when the validated pool is empty.

A source lands in `failedSources` both when its fetch throws and when its
length-filtered contribution is empty, so "every selected source's fetch
failed" in the claim's own counting (`failedSources.length = sources.length`)
is equivalent, by the partition lemma, to `successSources = []`. -/

/-- **C2**: when the validated pool is empty,
`generateWordsFromMultipleSources` fails with the "could not fetch from any
source" error exactly when every selected source was recorded failed
(equivalently, no source succeeded), and with the "no valid words of the
requested length" error exactly when at least one source succeeded; a source
whose fetch succeeded but contributed no word of the requested length is
recorded as failed, not turned into a hard error (last conjunct: that
iteration only appends the source to `failedSources`). -/
theorem V4.generate_error_dichotomy (env : V4.GenEnv) (r : Nat → Nat)
    (st : V4.DState) (len count : Nat) (sources : List String)
    (hne : sources ≠ []) :
    (V4.genAcc env st len sources).failedSources.length +
      (V4.genAcc env st len sources).successSources.length = sources.length ∧
    (V4.validPool env (V4.genAcc env st len sources) = [] →
      ((V4.generateWordsFromMultipleSources env r st len sources count).1 =
          .error .allSourcesFailed ↔
        (V4.genAcc env st len sources).successSources = []) ∧
      ((V4.generateWordsFromMultipleSources env r st len sources count).1 =
          .error (.noValidWords len) ↔
        (V4.genAcc env st len sources).successSources ≠ [])) ∧
    (∀ (acc : V4.LoopAcc) (s : String) (ws : List Word) (st' : V4.DState),
      V4.fetchWordListBySource env.fetchU acc.st s = (.ok ws, st') →
      (ws.filter (fun w => w.length = len)).length = 0 →
      V4.processSource env len acc s =
        { acc with failedSources := acc.failedSources ++ [s], st := st' }) := by
  have hpart := V4.processSources_partition env len sources
    ⟨[], [], [], V4.loadProblemWordsIfNeeded env st⟩
  have hpg : (V4.genAcc env st len sources).failedSources.length +
      (V4.genAcc env st len sources).successSources.length = sources.length := by
    simpa [V4.genAcc, V4.processSources] using hpart
  refine ⟨hpg, ?_, ?_⟩
  · intro hvp
    have hempty : (V4.validPool env (V4.genAcc env st len sources)).isEmpty
        = true := by
      rw [hvp]
      rfl
    have hne' : ¬ (sources.isEmpty = true) := by
      simpa [List.isEmpty_iff] using hne
    unfold V4.generateWordsFromMultipleSources
    rw [if_neg hne', if_pos hempty]
    by_cases hc : (V4.genAcc env st len sources).failedSources.length =
        sources.length
    · rw [if_pos hc]
      have hsucc : (V4.genAcc env st len sources).successSources = [] := by
        rw [← List.length_eq_zero]
        omega
      simp [hsucc]
    · rw [if_neg hc]
      have hsucc : (V4.genAcc env st len sources).successSources ≠ [] := by
        intro h0
        rw [h0] at hpg
        simp at hpg
        exact hc (by omega)
      simp [hsucc]
  · intro acc s ws st' hfe hlen0
    unfold V4.processSource
    rw [hfe]
    simp [hlen0]

/-- Witness for C2: with the single source `scrabble` failing on the
fixture network and no fallback cached, the call fails with the
all-sources-failed error. -/
theorem V4.generate_error_dichotomy_witness :
    (V4.generateWordsFromMultipleSources env404 (fun _ => 0) emptyDState 5
        ["scrabble"] 10).1 = .error .allSourcesFailed := by
  have h := V4.generate_error_dichotomy env404 (fun _ => 0) emptyDState 5 10
    ["scrabble"] (by decide)
  exact ((h.2.1 (by decide)).1).mpr (by decide)

theorem V4.processSource_failed_mono (env : V4.GenEnv) (len : Nat)
    (acc : V4.LoopAcc) (x : String) :
    ∀ y ∈ acc.failedSources,
      y ∈ (V4.processSource env len acc x).failedSources := by
  unfold V4.processSource
  split
  · split
    · intro y hy
      simpa using hy
    · intro y hy
      simp only [List.mem_append]
      exact Or.inl hy
  · intro y hy
    simp only [List.mem_append]
    exact Or.inl hy

theorem V4.processSource_failed_sub (env : V4.GenEnv) (len : Nat)
    (acc : V4.LoopAcc) (x : String) :
    ∀ y ∈ (V4.processSource env len acc x).failedSources,
      y ∈ acc.failedSources ∨ y = x := by
  unfold V4.processSource
  split
  · split
    · intro y hy
      exact Or.inl (by simpa using hy)
    · intro y hy
      simpa using List.mem_append.mp hy
  · intro y hy
    simpa using List.mem_append.mp hy

theorem V4.processSource_cache_other (env : V4.GenEnv) (len : Nat)
    (acc : V4.LoopAcc) (x k : String) (hk : k ≠ x) :
    (V4.processSource env len acc x).st.wordCache k = acc.st.wordCache k := by
  have hfc := V4.fetchWordListBySource_cache_other env.fetchU acc.st x k hk
  unfold V4.processSource
  rcases hres : V4.fetchWordListBySource env.fetchU acc.st x with ⟨res, st'⟩
  rw [hres] at hfc
  cases res with
  | ok ws =>
    by_cases hl : 0 < (ws.filter (fun w => w.length = len)).length
    · simp only [hl, if_true]
      exact hfc
    · simp only [hl, if_false]
      exact hfc
  | error e' => exact hfc

/-- Processing a source whose fetch fails while no fallback is cached only
records the failure. -/
theorem V4.processSource_fetchfail (env : V4.GenEnv) (len : Nat)
    (acc : V4.LoopAcc) (s e : String)
    (h1 : acc.st.wordCache s = none)
    (h2 : acc.st.wordCache "google_common" = none)
    (herr : env.fetchU (V4.urlFor s) = .error e) :
    V4.processSource env len acc s =
      { acc with
         failedSources := acc.failedSources ++ [s]
         st := { acc.st with
                  errorLog := fun k =>
                    if k = s then some e else acc.st.errorLog k } } := by
  unfold V4.processSource
  rw [V4.fetchWordListBySource_error_nofallback env.fetchU acc.st s e h1 herr h2]

/-- Processing a source whose fetch fails but whose fallback list has words
of the requested length counts it as succeeded. -/
theorem V4.processSource_fallback_success (env : V4.GenEnv) (len : Nat)
    (acc : V4.LoopAcc) (s e : String) (cw : List Word)
    (h1 : acc.st.wordCache s = none)
    (hgc : acc.st.wordCache "google_common" = some cw)
    (hsg : s ≠ "google_common")
    (herr : env.fetchU (V4.urlFor s) = .error e)
    (hlen : 0 < (cw.filter (fun w => w.length = len)).length) :
    V4.processSource env len acc s =
      { allWords := (cw.filter (fun w => w.length = len)).foldl
          (fun aw w => V4.addSet w aw) acc.allWords
        failedSources := acc.failedSources
        successSources := acc.successSources ++ [s]
        st := { acc.st with
                 wordCache := fun k =>
                   if k = s then some cw else acc.st.wordCache k
                 errorLog := fun k =>
                   if k = s then some e else acc.st.errorLog k } } := by
  rw [V4.processSource,
    V4.fetchWordListBySource_error_fallback env.fetchU acc.st s e cw h1 herr
      hsg hgc]
  simp [hlen]

theorem V4.processSource_hit_success (env : V4.GenEnv) (len : Nat)
    (acc : V4.LoopAcc) (s : String) (ws : List Word)
    (h : acc.st.wordCache s = some ws)
    (hlen : 0 < (ws.filter (fun w => w.length = len)).length) :
    V4.processSource env len acc s =
      { allWords := (ws.filter (fun w => w.length = len)).foldl
          (fun aw w => V4.addSet w aw) acc.allWords
        failedSources := acc.failedSources
        successSources := acc.successSources ++ [s]
        st := acc.st } := by
  rw [V4.processSource,
    V4.fetchWordListBySource_cache_hit env.fetchU acc.st s ws h]
  simp [hlen]

theorem V4.loadProblemWords_cache (env : V4.GenEnv) (st : V4.DState) :
    (V4.loadProblemWordsIfNeeded env st).wordCache = st.wordCache := by
  unfold V4.loadProblemWordsIfNeeded
  split <;> rfl

/-- Loop invariant when the failing source has no usable fallback: its and
`google_common`'s cache slots stay empty, `failedSources` only grows, and
every processed occurrence of the failing source is recorded failed. -/
theorem V4.processSources_nofallback_inv (env : V4.GenEnv) (len : Nat)
    (s e : String) (hfail : env.fetchU (V4.urlFor s) = .error e) :
    ∀ (xs : List String) (acc : V4.LoopAcc),
      "google_common" ∉ xs →
      acc.st.wordCache s = none →
      acc.st.wordCache "google_common" = none →
      ((xs.foldl (V4.processSource env len) acc).st.wordCache s = none ∧
       (xs.foldl (V4.processSource env len) acc).st.wordCache "google_common"
         = none) ∧
      (∀ y ∈ acc.failedSources,
        y ∈ (xs.foldl (V4.processSource env len) acc).failedSources) ∧
      (s ∈ xs →
        s ∈ (xs.foldl (V4.processSource env len) acc).failedSources) := by
  intro xs
  induction xs with
  | nil =>
    intro acc _ h1 h2
    exact ⟨⟨h1, h2⟩, fun y hy => hy, by simp⟩
  | cons x t ih =>
    intro acc hg h1 h2
    have hgx : x ≠ "google_common" := by
      intro he
      exact hg (by rw [he]; exact List.mem_cons_self _ _)
    have hgt : "google_common" ∉ t := fun hm => hg (List.mem_cons_of_mem _ hm)
    have h2' : (V4.processSource env len acc x).st.wordCache "google_common"
        = none := by
      rw [V4.processSource_cache_other env len acc x _ (Ne.symm hgx)]
      exact h2
    by_cases hxs : x = s
    · subst hxs
      have hstep := V4.processSource_fetchfail env len acc x e h1 h2 hfail
      have h1' : (V4.processSource env len acc x).st.wordCache x = none := by
        rw [hstep]
        exact h1
      obtain ⟨hcache, hmono, hmem⟩ :=
        ih (V4.processSource env len acc x) hgt h1' h2'
      refine ⟨hcache, ?_, ?_⟩
      · intro y hy
        apply hmono
        rw [hstep]
        simp only [List.mem_append]
        exact Or.inl hy
      · intro _
        apply hmono
        rw [hstep]
        simp
    · have h1' : (V4.processSource env len acc x).st.wordCache s = none := by
        rw [V4.processSource_cache_other env len acc x s (fun he => hxs he.symm)]
        exact h1
      obtain ⟨hcache, hmono, hmem⟩ :=
        ih (V4.processSource env len acc x) hgt h1' h2'
      refine ⟨hcache, ?_, ?_⟩
      · intro y hy
        exact hmono y (V4.processSource_failed_mono env len acc x y hy)
      · intro hsx
        rcases List.mem_cons.mp hsx with he | hst
        · exact absurd he.symm hxs
        · exact hmem hst

/-- Loop invariant when the failing source is silently served by the cached
`google_common` fallback with words of the requested length: it is never
recorded failed. -/
theorem V4.processSources_fallback_inv (env : V4.GenEnv) (len : Nat)
    (s e : String) (cw : List Word)
    (hfail : env.fetchU (V4.urlFor s) = .error e)
    (hsg : s ≠ "google_common")
    (hlen : 0 < (cw.filter (fun w => w.length = len)).length) :
    ∀ (xs : List String) (acc : V4.LoopAcc),
      "google_common" ∉ xs →
      (acc.st.wordCache s = none ∨ acc.st.wordCache s = some cw) →
      acc.st.wordCache "google_common" = some cw →
      s ∉ acc.failedSources →
      s ∉ (xs.foldl (V4.processSource env len) acc).failedSources := by
  intro xs
  induction xs with
  | nil =>
    intro acc _ _ _ hnf
    exact hnf
  | cons x t ih =>
    intro acc hg hcs hcg hnf
    have hgx : x ≠ "google_common" := by
      intro he
      exact hg (by rw [he]; exact List.mem_cons_self _ _)
    have hgt : "google_common" ∉ t := fun hm => hg (List.mem_cons_of_mem _ hm)
    by_cases hxs : x = s
    · subst hxs
      rcases hcs with hnone | hsome
      · have hstep := V4.processSource_fallback_success env len acc x e cw
          hnone hcg hsg hfail hlen
        apply ih (V4.processSource env len acc x) hgt ?_ ?_ ?_
        · right
          rw [hstep]
          simp
        · rw [hstep]
          simp only []
          rw [if_neg (Ne.symm hsg)]
          exact hcg
        · rw [hstep]
          exact hnf
      · have hstep := V4.processSource_hit_success env len acc x cw hsome hlen
        apply ih (V4.processSource env len acc x) hgt ?_ ?_ ?_
        · right
          rw [hstep]
          exact hsome
        · rw [hstep]
          exact hcg
        · rw [hstep]
          exact hnf
    · have hcs' : (V4.processSource env len acc x).st.wordCache s
          = acc.st.wordCache s :=
        V4.processSource_cache_other env len acc x s (fun he => hxs he.symm)
      have hcg' : (V4.processSource env len acc x).st.wordCache "google_common"
          = acc.st.wordCache "google_common" :=
        V4.processSource_cache_other env len acc x _ (Ne.symm hgx)
      apply ih (V4.processSource env len acc x) hgt ?_ ?_ ?_
      · rw [hcs']
        exact hcs
      · rw [hcg']
        exact hcg
      · intro hmem
        rcases V4.processSource_failed_sub env len acc x s hmem with hold | hex
        · exact hnf hold
        · exact hxs hex.symm

/-! ## C4 — a fetch failure of one source does not abort a multi-source
call.

The first half of the claim holds: per-source errors are caught in the loop
and the call returns `.ok` whenever the validated pool is non-empty.  The
second half — "the failing source's id appears in `failedSources`" — fails
when the `google_common` fallback silently substitutes a cached list with
words of the requested length (counterexample below); it holds whenever the
fallback is unavailable, e.g. when `google_common` is neither cached nor
among the selected sources. -/

/-- **C4 (amended)**: if a selected source's fetch fails and the
`google_common` fallback is unavailable (its list is not in the in-memory
cache and it is not itself selected), the failing id is recorded in
`failedSources`; and whenever the validated pool is non-empty the call does
not raise — it returns the sampled words together with that
`failedSources` list. -/
theorem V4.generate_failed_source_recorded (env : V4.GenEnv) (r : Nat → Nat)
    (st : V4.DState) (len count : Nat) (sources : List String)
    (s e : String)
    (hs : s ∈ sources)
    (hfail : env.fetchU (V4.urlFor s) = .error e)
    (hcs : st.wordCache s = none)
    (hcg : st.wordCache "google_common" = none)
    (hg : "google_common" ∉ sources) :
    s ∈ (V4.genAcc env st len sources).failedSources ∧
    (V4.validPool env (V4.genAcc env st len sources) ≠ [] →
      (V4.generateWordsFromMultipleSources env r st len sources count).1 =
        .ok ⟨V4.sample r (V4.validPool env (V4.genAcc env st len sources))
               count,
             (V4.genAcc env st len sources).failedSources⟩) := by
  have hinv := V4.processSources_nofallback_inv env len s e hfail sources
    ⟨[], [], [], V4.loadProblemWordsIfNeeded env st⟩ hg
    (by rw [V4.loadProblemWords_cache]; exact hcs)
    (by rw [V4.loadProblemWords_cache]; exact hcg)
  constructor
  · exact hinv.2.2 hs
  · intro hvp
    have hne' : ¬ (sources.isEmpty = true) := by
      simp only [List.isEmpty_iff]
      exact List.ne_nil_of_mem hs
    have hvp' : ¬ ((V4.validPool env (V4.genAcc env st len sources)).isEmpty
        = true) := by
      simpa [List.isEmpty_iff] using hvp
    unfold V4.generateWordsFromMultipleSources
    rw [if_neg hne', if_neg hvp']

/-- Witness for C4 (amended): `enable` succeeds with valid 5-letter words,
`scrabble` 404s with no fallback cached: the call returns `.ok` and records
`scrabble` as failed. -/
theorem V4.generate_failed_source_recorded_witness :
    "scrabble" ∈
      (V4.genAcc env404 emptyDState 5 ["enable", "scrabble"]).failedSources ∧
    (V4.generateWordsFromMultipleSources env404 (fun _ => 0) emptyDState 5
        ["enable", "scrabble"] 10).1 =
      .ok ⟨V4.sample (fun _ => 0)
            (V4.validPool env404
              (V4.genAcc env404 emptyDState 5 ["enable", "scrabble"])) 10,
           (V4.genAcc env404 emptyDState 5 ["enable", "scrabble"]).failedSources⟩
    := by
  have h := V4.generate_failed_source_recorded env404 (fun _ => 0) emptyDState
    5 10 ["enable", "scrabble"] "scrabble"
    "Failed to fetch word list: 404 Not Found"
    (by decide) (by decide) (by decide) (by decide) (by decide)
  exact ⟨h.1, h.2 (by decide)⟩

/-- Counterexample to C4 as frozen: with the `google_common` list cached,
the 404 of `scrabble` is recovered by the fallback, the call succeeds — but
`scrabble` does not appear in the returned `failedSources`. -/
theorem V4.generate_failed_source_omitted_counterexample :
    env404.fetchU (V4.urlFor "scrabble") =
      .error "Failed to fetch word list: 404 Not Found" ∧
    (V4.generateWordsFromMultipleSources env404 (fun _ => 0) cachedDState 5
        ["enable", "scrabble"] 10).1 = .ok ⟨[appleW, lemonW], []⟩ := by decide

/-! ## C9 — the silent `google_common` fallback.

The claim is right that the fallback silently substitutes the cached
`google_common` list, caches it under the failed source's id and prevents
the call from raising; but "never added to failedSources" is too strong:
when the substituted list has no word of the requested length the source is
still recorded failed as an empty contribution (counterexample below). -/

/-- **C9 (amended)**: if fetching a source's own list fails while the
`google_common` list is in the in-memory cache, `fetchWordListBySource`
silently returns the `google_common` words, caches them under the failed
source's id (still logging the error), and does not raise; the source is
then absent from `failedSources` whenever the fallback list contains at
least one word of the requested length. -/
theorem V4.fallback_hides_failure (env : V4.GenEnv) (r : Nat → Nat)
    (st : V4.DState) (len count : Nat) (sources : List String)
    (s e : String) (cw : List Word)
    (hs : s ∈ sources) (hsg : s ≠ "google_common")
    (hg : "google_common" ∉ sources)
    (hmiss : st.wordCache s = none)
    (hgc : st.wordCache "google_common" = some cw)
    (hfail : env.fetchU (V4.urlFor s) = .error e)
    (hlen : 0 < (cw.filter (fun w => w.length = len)).length) :
    (V4.fetchWordListBySource env.fetchU st s).1 = .ok cw ∧
    (V4.fetchWordListBySource env.fetchU st s).2.wordCache s = some cw ∧
    (V4.fetchWordListBySource env.fetchU st s).2.errorLog s = some e ∧
    s ∉ (V4.genAcc env st len sources).failedSources ∧
    (∀ g, (V4.generateWordsFromMultipleSources env r st len sources count).1 =
        .ok g → s ∉ g.failedSources) := by
  have hfb := V4.fetchWordListBySource_error_fallback env.fetchU st s e cw
    hmiss hfail hsg hgc
  have hnotfailed : s ∉ (V4.genAcc env st len sources).failedSources := by
    apply V4.processSources_fallback_inv env len s e cw hfail hsg hlen sources
      ⟨[], [], [], V4.loadProblemWordsIfNeeded env st⟩ hg
    · left
      rw [V4.loadProblemWords_cache]
      exact hmiss
    · rw [V4.loadProblemWords_cache]
      exact hgc
    · simp
  refine ⟨by rw [hfb], by rw [hfb]; simp, by rw [hfb]; simp, hnotfailed, ?_⟩
  intro g hok
  have hne' : ¬ (sources.isEmpty = true) := by
    simp only [List.isEmpty_iff]
    exact List.ne_nil_of_mem hs
  unfold V4.generateWordsFromMultipleSources at hok
  rw [if_neg hne'] at hok
  by_cases hvp : (V4.validPool env (V4.genAcc env st len sources)).isEmpty
      = true
  · rw [if_pos hvp] at hok
    split at hok <;> simp at hok
  · rw [if_neg hvp] at hok
    simp only [Except.ok.injEq] at hok
    rw [← hok]
    exact hnotfailed

/-- Witness for C9 (amended): `scrabble` 404s, the cached `google_common`
list `[appleW]` is substituted and has a 5-letter word, so `scrabble` is
absent from `failedSources` of the successful call. -/
theorem V4.fallback_hides_failure_witness :
    (V4.fetchWordListBySource env404.fetchU cachedDState "scrabble").1 =
      .ok [appleW] ∧
    (V4.fetchWordListBySource env404.fetchU cachedDState "scrabble").2.wordCache
      "scrabble" = some [appleW] ∧
    (V4.fetchWordListBySource env404.fetchU cachedDState "scrabble").2.errorLog
      "scrabble" = some "Failed to fetch word list: 404 Not Found" ∧
    "scrabble" ∉
      (V4.genAcc env404 cachedDState 5 ["enable", "scrabble"]).failedSources ∧
    (∀ g, (V4.generateWordsFromMultipleSources env404 (fun _ => 0) cachedDState
        5 ["enable", "scrabble"] 10).1 = .ok g →
      "scrabble" ∉ g.failedSources) :=
  V4.fallback_hides_failure env404 (fun _ => 0) cachedDState 5 10
    ["enable", "scrabble"] "scrabble" "Failed to fetch word list: 404 Not Found"
    [appleW] (by decide) (by decide) (by decide) (by decide) (by decide)
    (by decide) (by decide)

/-- Counterexample to C9 as frozen: when the substituted `google_common`
list has no word of the requested length (here length 3 against the cached
`[appleW]`), the fallback-served source is still recorded in
`failedSources`, so it is not true that it is "never added". -/
theorem V4.fallback_source_failed_counterexample :
    env404.fetchU (V4.urlFor "scrabble") =
      .error "Failed to fetch word list: 404 Not Found" ∧
    cachedDState.wordCache "google_common" = some [appleW] ∧
    (V4.generateWordsFromMultipleSources env404 (fun _ => 0) cachedDState 3
        ["enable", "scrabble"] 10).1 = .ok ⟨[dogW], ["scrabble"]⟩ := by decide

/-! ## C8 — corrected: only the denylist variant clears on success.

The claim cites two implementations of `fetchWordListBySource`: the
denylist variant (which deletes the error-log entry on a successful fetch)
and the second variant, whose success path caches and returns without
touching the error log, so an error recorded by an earlier failed fetch
survives a later successful one (counterexample below). -/

/-- **C8 (amended)**: after a failed fetch, both cited variants map the
source id to the failure's message in the ErrorLog; after a successful
fetch, the denylist variant clears any previously recorded error for that
source, but the second variant's success path leaves the ErrorLog exactly
as it was, so a previously recorded error is not cleared there. -/
theorem fetchWordListBySource_errorLog_variants
    (f : String → Except String (List Word)) (s : String) :
    (∀ st : V4.DState, st.wordCache s = none →
      (∀ ws, f (V4.urlFor s) = .ok ws →
        (V4.fetchWordListBySource f st s).1 = .ok ws ∧
        (V4.fetchWordListBySource f st s).2.errorLog s = none) ∧
      (∀ e, f (V4.urlFor s) = .error e →
        (V4.fetchWordListBySource f st s).2.errorLog s = some e)) ∧
    (∀ st : V2.WState, st.wordCache s = none →
      (∀ ws, f (V2.urlFor s) = .ok ws →
        (∃ ws', (V2.fetchWordListBySource f st s).1 = .ok ws') ∧
        (V2.fetchWordListBySource f st s).2.errorLog = st.errorLog) ∧
      (∀ e, f (V2.urlFor s) = .error e →
        (V2.fetchWordListBySource f st s).2.errorLog s = some e)) := by
  constructor
  · intro st hmiss
    exact V4.fetchWordListBySource_errorLog f st s hmiss
  · intro st hmiss
    constructor
    · intro ws hok
      unfold V2.fetchWordListBySource
      simp only [hmiss, hok]
      split
      · exact ⟨⟨_, rfl⟩, rfl⟩
      · exact ⟨⟨_, rfl⟩, rfl⟩
    · intro e herr
      unfold V2.fetchWordListBySource
      simp only [hmiss, herr]
      simp

/-- Witness for C8 (amended): concrete success and failure fetches in both
variants — the denylist variant ends with no `enable` entry and a 404 entry
for `scrabble`; the second variant leaves the stale `gsl` entry of
`staleV2State` in place on success and records "boom" on failure. -/
theorem fetchWordListBySource_errorLog_variants_witness :
    (V4.fetchWordListBySource env404.fetchU emptyDState "enable").1 =
      .ok [appleW, lemonW, dogW] ∧
    (V4.fetchWordListBySource env404.fetchU emptyDState "enable").2.errorLog
      "enable" = none ∧
    (V4.fetchWordListBySource env404.fetchU emptyDState "scrabble").2.errorLog
      "scrabble" = some "Failed to fetch word list: 404 Not Found" ∧
    (V2.fetchWordListBySource (fun _ => .ok [appleW]) staleV2State "gsl").2.errorLog
      = staleV2State.errorLog ∧
    (V2.fetchWordListBySource (fun _ => .error "boom") freshV2State "gsl").2.errorLog
      "gsl" = some "boom" := by
  have h4 := (fetchWordListBySource_errorLog_variants env404.fetchU "enable").1
    emptyDState (by decide)
  have h4ok := h4.1 [appleW, lemonW, dogW] (by decide)
  have h4e := (fetchWordListBySource_errorLog_variants env404.fetchU
    "scrabble").1 emptyDState (by decide)
  have h2ok := ((fetchWordListBySource_errorLog_variants
    (fun _ => .ok [appleW]) "gsl").2 staleV2State (by decide)).1 [appleW]
    (by decide)
  have h2e := ((fetchWordListBySource_errorLog_variants
    (fun _ => .error "boom") "gsl").2 freshV2State (by decide)).2 "boom"
    (by decide)
  exact ⟨h4ok.1, h4ok.2,
    h4e.2 "Failed to fetch word list: 404 Not Found" (by decide),
    h2ok.2, h2e⟩

/-- Counterexample to C8 as frozen: in the cited second variant, a
successful fetch for `gsl` returns the fetched list but leaves the
previously recorded error for `gsl` in the ErrorLog — the entry is not
cleared on success. -/
theorem V2.fetchWordListBySource_stale_error_counterexample :
    (V2.fetchWordListBySource (fun _ => .ok [appleW]) staleV2State "gsl").1 =
      .ok [appleW] ∧
    (V2.fetchWordListBySource (fun _ => .ok [appleW]) staleV2State
      "gsl").2.errorLog "gsl" = some "Failed to fetch word list: 503" := by
  decide
